import Mathlib

/-!
Shallow embedding of the `PublicationCollector` class
(`src/index.ts`, shipped inside `src/README.md` of
`anonyfox:publication-collector`).

The collector's document store `_documents` is a JavaScript object of
objects.  We model JS objects as insertion-ordered association lists:
assigning to a present key updates it in place, assigning to an absent
key appends it, and `delete` removes it.  Field values are kept opaque
as strings.  The asynchronous life of a `collect` call is modelled as a
state machine further below: each continuation wired by the source
becomes one event of a step function.
-/

namespace PublicationCollector

/-- Model of JS property read `obj[k]`: first (unique) binding of `k`. -/
def getKey [DecidableEq κ] : List (κ × α) → κ → Option α
  | [], _ => none
  | kv :: rest, k => if kv.1 = k then some kv.2 else getKey rest k

/-- Model of JS property write `obj[k] = v`: update in place if the key is
present (JS keeps the original insertion position), append otherwise. -/
def setKey [DecidableEq κ] : List (κ × α) → κ → α → List (κ × α)
  | [], k, v => [(k, v)]
  | kv :: rest, k, v => if kv.1 = k then (k, v) :: rest else kv :: setKey rest k v

/-- Model of JS `delete obj[k]`: the object without the binding of `k`. -/
def delKey [DecidableEq κ] : List (κ × α) → κ → List (κ × α)
  | [], _ => []
  | kv :: rest, k => if kv.1 = k then delKey rest k else kv :: delKey rest k

/-- A document: a plain field bag (JS object), field values opaque. -/
abbrev MDoc := List (String × String)

/-- One collection's bucket: document id to document. -/
abbrev CollDocs := List (String × MDoc)

/-- The collector's `_documents` store: collection name to bucket. -/
abbrev Store := List (String × CollDocs)

/-- JS `Object.assign(doc, fields)`: merge `fields` into `doc`, later
keys overriding. -/
def assignFields (doc fields : MDoc) : MDoc :=
  fields.foldl (fun d kv => setKey d kv.1 kv.2) doc

/-- The object literal `{ _id: id, ...fields }` built by `added`. -/
def mkAddedDoc (id : String) (fields : MDoc) : MDoc :=
  assignFields [("_id", id)] fields

/-- `_ensureCollectionInRes`: `this._documents[collection] =
this._documents[collection] || {}`. -/
def ensureCollectionInRes (st : Store) (c : String) : Store :=
  match getKey st c with
  | some _ => st
  | none => setKey st c []

/-- `added(collection, id, fields)` acting on the store. -/
def added (st : Store) (c i : String) (fields : MDoc) : Store :=
  let st1 := ensureCollectionInRes st c
  let docs := (getKey st1 c).getD []
  setKey st1 c (setKey docs i (mkAddedDoc i fields))

/-- `changed(collection, id, fields)` acting on the store. -/
def changed (st : Store) (c i : String) (fields : MDoc) : Store :=
  let st1 := ensureCollectionInRes st c
  let docs := (getKey st1 c).getD []
  match getKey docs i with
  | some d => setKey st1 c (setKey docs i (assignFields d fields))
  | none => st1

/-- `removed(collection, id)` acting on the store. -/
def removed (st : Store) (c i : String) : Store :=
  let st1 := ensureCollectionInRes st c
  let docs := (getKey st1 c).getD []
  setKey st1 c (delKey docs i)

/-- The snapshot type returned by `collect`: collection name to ordered
document list. -/
abbrev Response := List (String × List MDoc)

/-- `_generateResponse`: `Object.values` of every bucket, in insertion
order. -/
def generateResponse (st : Store) : Response :=
  st.map (fun ce => (ce.1, ce.2.map Prod.snd))

/-- The document currently stored under `(c, i)`, if any. -/
def docAt (st : Store) (c i : String) : Option MDoc :=
  getKey ((getKey st c).getD []) i

/-- One store event reported during a collect call (a manual call by the
handler or a callback from cursor observation). -/
inductive StoreOp where
  | add (c i : String) (fields : MDoc)
  | chg (c i : String) (fields : MDoc)
  | rm (c i : String)
  deriving DecidableEq

/-- Dispatch of one event to the store methods. -/
def applyOp (st : Store) : StoreOp → Store
  | .add c i f => added st c i f
  | .chg c i f => changed st c i f
  | .rm c i => removed st c i

/-- A finite sequence of store events applied in call order. -/
def applyOps (st : Store) (ops : List StoreOp) : Store :=
  ops.foldl applyOp st

/-- The `(collection, id)` pair an event targets. -/
def targetOf : StoreOp → String × String
  | .add c i _ => (c, i)
  | .chg c i _ => (c, i)
  | .rm c i => (c, i)

/-- An event with its target erased: the per-document content of an
add/change/remove. -/
inductive NetOp where
  | nadd (fields : MDoc)
  | nchg (fields : MDoc)
  | nrm
  deriving DecidableEq

/-- Forget the target of an event. -/
def netOf : StoreOp → NetOp
  | .add _ _ f => .nadd f
  | .chg _ _ f => .nchg f
  | .rm _ _ => .nrm

/-- The subsequence of events targeting `(c, i)`, in call order. -/
def opsAt (c i : String) (ops : List StoreOp) : List NetOp :=
  (ops.filter (fun op => targetOf op = (c, i))).map netOf

/-- Net effect of one event on the document at its target: `added`
replaces, `changed` merges into a present document and skips an absent
one, `removed` deletes. -/
def netStep (i : String) (d : Option MDoc) : NetOp → Option MDoc
  | .nadd f => some (mkAddedDoc i f)
  | .nchg f => d.map (fun doc => assignFields doc f)
  | .nrm => none

/-! ### Association-list lemmas -/

theorem getKey_setKey_self [DecidableEq κ] (l : List (κ × α)) (k : κ) (v : α) :
    getKey (setKey l k v) k = some v := by
  induction l with
  | nil => simp [setKey, getKey]
  | cons kv rest ih =>
    obtain ⟨k1, v1⟩ := kv
    by_cases hk : k1 = k
    · simp [setKey, getKey, hk]
    · simp [setKey, getKey, hk, ih]

theorem getKey_setKey_ne [DecidableEq κ] (l : List (κ × α)) (k k' : κ) (v : α)
    (h : k ≠ k') : getKey (setKey l k v) k' = getKey l k' := by
  induction l with
  | nil => simp [setKey, getKey, h]
  | cons kv rest ih =>
    obtain ⟨k1, v1⟩ := kv
    by_cases hk : k1 = k
    · subst hk
      simp [setKey, getKey, h]
    · simp [setKey, getKey, hk, ih]

theorem getKey_delKey_self [DecidableEq κ] (l : List (κ × α)) (k : κ) :
    getKey (delKey l k) k = none := by
  induction l with
  | nil => simp [delKey, getKey]
  | cons kv rest ih =>
    obtain ⟨k1, v1⟩ := kv
    by_cases hk : k1 = k
    · simp [delKey, getKey, hk, ih]
    · simp [delKey, getKey, hk, ih]

theorem getKey_delKey_ne [DecidableEq κ] (l : List (κ × α)) (k k' : κ)
    (h : k ≠ k') : getKey (delKey l k) k' = getKey l k' := by
  induction l with
  | nil => simp [delKey, getKey]
  | cons kv rest ih =>
    obtain ⟨k1, v1⟩ := kv
    by_cases hk : k1 = k
    · subst hk
      simp [delKey, getKey, h, ih]
    · simp [delKey, getKey, hk, ih]

theorem setKey_of_getKey_eq [DecidableEq κ] (l : List (κ × α)) (k : κ) (v : α)
    (h : getKey l k = some v) : setKey l k v = l := by
  induction l with
  | nil => simp [getKey] at h
  | cons kv rest ih =>
    obtain ⟨k1, v1⟩ := kv
    by_cases hk : k1 = k
    · subst hk
      simp [getKey] at h
      simp [setKey, h]
    · simp [getKey, hk] at h
      simp [setKey, hk, ih h]

theorem delKey_of_getKey_none [DecidableEq κ] (l : List (κ × α)) (k : κ)
    (h : getKey l k = none) : delKey l k = l := by
  induction l with
  | nil => simp [delKey]
  | cons kv rest ih =>
    obtain ⟨k1, v1⟩ := kv
    by_cases hk : k1 = k
    · subst hk
      simp [getKey] at h
    · simp [getKey, hk] at h
      simp [delKey, hk, ih h]

theorem getKey_ensure_self (st : Store) (c : String) :
    getKey (ensureCollectionInRes st c) c = some ((getKey st c).getD []) := by
  unfold ensureCollectionInRes
  cases hg : getKey st c with
  | some docs => simp [hg]
  | none => simp [getKey_setKey_self]

theorem getKey_ensure_ne (st : Store) (c c' : String) (h : c ≠ c') :
    getKey (ensureCollectionInRes st c) c' = getKey st c' := by
  unfold ensureCollectionInRes
  cases hg : getKey st c with
  | some docs => rfl
  | none => exact getKey_setKey_ne _ _ _ _ h

theorem docAt_ensure (st : Store) (c' c i : String) :
    docAt (ensureCollectionInRes st c') c i = docAt st c i := by
  unfold docAt
  by_cases h : c' = c
  · subst h
    rw [getKey_ensure_self]
    simp
  · rw [getKey_ensure_ne _ _ _ h]

/-! ### Effect of each store method on the document at a target -/

theorem getKey_added_self (st : Store) (c i : String) (f : MDoc) :
    getKey (added st c i f) c =
      some (setKey ((getKey st c).getD []) i (mkAddedDoc i f)) := by
  simp only [added]
  rw [getKey_setKey_self, getKey_ensure_self]
  simp

theorem docAt_added_self (st : Store) (c i : String) (f : MDoc) :
    docAt (added st c i f) c i = some (mkAddedDoc i f) := by
  unfold docAt
  rw [getKey_added_self]
  simp [getKey_setKey_self]

theorem docAt_added_ne (st : Store) (c i : String) (f : MDoc) (c' i' : String)
    (h : ¬((c, i) = (c', i'))) :
    docAt (added st c i f) c' i' = docAt st c' i' := by
  by_cases hc : c = c'
  · subst hc
    have hi : i ≠ i' := by
      intro hi
      exact h (by rw [hi])
    unfold docAt
    rw [getKey_added_self]
    simp only [Option.getD_some]
    rw [getKey_setKey_ne _ _ _ _ hi]
  · unfold docAt
    simp only [added]
    rw [getKey_setKey_ne _ _ _ _ hc, getKey_ensure_ne _ _ _ hc]

theorem docAt_changed_self (st : Store) (c i : String) (f : MDoc) :
    docAt (changed st c i f) c i =
      (docAt st c i).map (fun d => assignFields d f) := by
  simp only [changed, getKey_ensure_self, Option.getD_some]
  cases hd : getKey ((getKey st c).getD []) i with
  | some d =>
    unfold docAt
    rw [getKey_setKey_self]
    simp [getKey_setKey_self, hd]
  | none =>
    rw [docAt_ensure]
    unfold docAt
    rw [hd]
    simp [hd]

theorem docAt_changed_ne (st : Store) (c i : String) (f : MDoc) (c' i' : String)
    (h : ¬((c, i) = (c', i'))) :
    docAt (changed st c i f) c' i' = docAt st c' i' := by
  simp only [changed, getKey_ensure_self, Option.getD_some]
  cases hd : getKey ((getKey st c).getD []) i with
  | some d =>
    by_cases hc : c = c'
    · subst hc
      have hi : i ≠ i' := by
        intro hi
        exact h (by rw [hi])
      unfold docAt
      rw [getKey_setKey_self]
      simp only [Option.getD_some]
      rw [getKey_setKey_ne _ _ _ _ hi]
    · unfold docAt
      rw [getKey_setKey_ne _ _ _ _ hc, getKey_ensure_ne _ _ _ hc]
  | none => rw [docAt_ensure]

theorem docAt_removed_self (st : Store) (c i : String) :
    docAt (removed st c i) c i = none := by
  simp only [removed, getKey_ensure_self, Option.getD_some]
  unfold docAt
  rw [getKey_setKey_self]
  simp [getKey_delKey_self]

theorem docAt_removed_ne (st : Store) (c i : String) (c' i' : String)
    (h : ¬((c, i) = (c', i'))) :
    docAt (removed st c i) c' i' = docAt st c' i' := by
  simp only [removed, getKey_ensure_self, Option.getD_some]
  by_cases hc : c = c'
  · subst hc
    have hi : i ≠ i' := by
      intro hi
      exact h (by rw [hi])
    unfold docAt
    rw [getKey_setKey_self]
    simp only [Option.getD_some]
    rw [getKey_delKey_ne _ _ _ hi]
  · unfold docAt
    rw [getKey_setKey_ne _ _ _ _ hc, getKey_ensure_ne _ _ _ hc]

theorem docAt_applyOp (st : Store) (op : StoreOp) (c i : String) :
    docAt (applyOp st op) c i =
      if targetOf op = (c, i) then netStep i (docAt st c i) (netOf op)
      else docAt st c i := by
  cases op with
  | add c' i' f =>
    by_cases h : (c', i') = (c, i)
    · obtain ⟨hc, hi⟩ := Prod.mk.injEq .. ▸ h
      subst hc; subst hi
      simp [applyOp, targetOf, netOf, netStep, docAt_added_self]
    · simp [applyOp, targetOf, netOf, h, docAt_added_ne st c' i' f c i h]
  | chg c' i' f =>
    by_cases h : (c', i') = (c, i)
    · obtain ⟨hc, hi⟩ := Prod.mk.injEq .. ▸ h
      subst hc; subst hi
      simp [applyOp, targetOf, netOf, netStep, docAt_changed_self]
    · simp [applyOp, targetOf, netOf, h, docAt_changed_ne st c' i' f c i h]
  | rm c' i' =>
    by_cases h : (c', i') = (c, i)
    · obtain ⟨hc, hi⟩ := Prod.mk.injEq .. ▸ h
      subst hc; subst hi
      simp [applyOp, targetOf, netOf, netStep, docAt_removed_self]
    · simp [applyOp, targetOf, netOf, h, docAt_removed_ne st c' i' c i h]

theorem docAt_applyOps (ops : List StoreOp) (st : Store) (c i : String) :
    docAt (applyOps st ops) c i =
      (opsAt c i ops).foldl (netStep i) (docAt st c i) := by
  induction ops generalizing st with
  | nil => rfl
  | cons op ops ih =>
    have hstep : applyOps st (op :: ops) = applyOps (applyOp st op) ops := rfl
    rw [hstep, ih]
    by_cases h : targetOf op = (c, i)
    · simp [opsAt, List.filter_cons, h, docAt_applyOp, List.foldl_cons]
    · simp [opsAt, List.filter_cons, h, docAt_applyOp]

/-! ### Handler result classification (`_extractCursors`, `_isCursor`) -/

/-- A JavaScript value as seen by `_extractCursors`: `null`, `undefined`,
a non-array object (cursor-like when it carries a `_publishCursor`
function, in which case `collName` models `_getCollectionName()`), an
array, or some other primitive with the given truthiness. -/
inductive JSVal where
  | vnull
  | vundefined
  | obj (hasPC : Bool) (collName : String)
  | arr (elems : List JSVal)
  | prim (truthy : Bool)

/-- JS truthiness: `null`/`undefined` are falsy, objects and arrays are
truthy, other primitives carry their own truthiness. -/
def truthy : JSVal → Bool
  | .vnull => false
  | .vundefined => false
  | .obj _ _ => true
  | .arr _ => true
  | .prim t => t

/-- Whether the value exposes a `_publishCursor` function. -/
def hasPublishCursorFn : JSVal → Bool
  | .obj pc _ => pc
  | _ => false

/-- `_isCursor(obj)`: `obj && typeof obj._publishCursor === 'function'`. -/
def isCursor (v : JSVal) : Bool :=
  truthy v && hasPublishCursorFn v

/-- `_extractCursors(res)`: `[]` on falsy, `[res]` on a cursor, the
cursor-like elements of an array, `[]` otherwise. -/
def extractCursors (res : JSVal) : List JSVal :=
  if truthy res = false then []
  else if isCursor res then [res]
  else
    match res with
    | .arr elems => elems.filter (fun r => isCursor r)
    | _ => []

/-- `_getCollectionName()` of a cursor-like value. -/
def collNameOf : JSVal → String
  | .obj _ cn => cn
  | _ => ""

/-! ### The life of a `collect` call as a state machine

Every asynchronous continuation wired inside `collect` /
`_publishHandlerResult` becomes one event of a step function on an
explicit state.  Promise settlement is first-settlement-wins, modelled
by `settleWith` leaving an already-settled outcome untouched. -/

/-- A JS error value: either an arbitrary value raised by handler or
observation code (opaque identity `v`), or an `Error` newly constructed
by the collector with the given message. -/
inductive ErrVal where
  | raised (v : Nat)
  | constructed (message : String)
  deriving DecidableEq

/-- Message of the "not found" error thrown by `collect`. -/
def notFoundMsg (name : String) : String :=
  "Publication \"" ++ name ++ "\" not found"

/-- Message of the timeout error rejected by the 5000 ms timer. -/
def timeoutMsg (name : String) : String :=
  "Publication \"" ++ name ++ "\" did not become ready within 5000ms"

/-- The delay, in milliseconds, passed to `Meteor.setTimeout` in
`collect`. -/
def timeoutDelayMs : Nat := 5000

/-- State of a `PublicationCollector` instance together with the
promise/timer plumbing of the current `collect` call.

* `documents`, `observeHandles`, `stopped`: the instance fields.
* `activeFlags`: the external active-status of each observation handle,
  keyed by handle id; `handle.stop()` sets the flag to `false`.
* `readyWired`/`addsWired`: whether `_readyResolver` /
  `_allAddsProcessed` currently hold a resolver.
* `readyFired`/`addsFired`: whether `readyPromise` / `_addsPromise`
  have resolved.
* `timerActive`: whether the 5000 ms timer is still pending.
* `settled`: the settlement of the promise returned by `collect`.
* `pubName`: the `name` argument of the current call. -/
structure MState where
  documents : Store
  observeHandles : List Nat
  stopped : Bool
  activeFlags : List (Nat × Bool)
  readyWired : Bool
  readyFired : Bool
  addsWired : Bool
  addsFired : Bool
  timerActive : Bool
  settled : Option (Except ErrVal Response)
  pubName : String

/-- `stop()`: a no-op when already stopped; otherwise mark stopped, stop
every registered observation handle and clear the handle list. -/
def stopRun (s : MState) : MState :=
  if s.stopped then s
  else
    { s with
      stopped := true
      activeFlags := s.observeHandles.foldl (fun fl h => setKey fl h false) s.activeFlags
      observeHandles := [] }

/-- The `cleanup` closure in `collect`: `Meteor.clearTimeout(timeout)`
followed by `this.stop()`. -/
def cleanupRun (s : MState) : MState :=
  stopRun { s with timerActive := false }

/-- `ready()`: call `_readyResolver` when present.  Resolving an
already-resolved promise is a no-op, so `readyFired` is monotone. -/
def readyRun (s : MState) : MState :=
  if s.readyWired then { s with readyFired := true } else s

/-- Settle the promise returned by `collect`; first settlement wins. -/
def settleWith (out : Except ErrVal Response) (s : MState) : MState :=
  if s.settled.isSome then s else { s with settled := some out }

/-- The shared rejection path: both `catch` blocks in `collect` run
`cleanup(timeout); reject(err)` with the original error value. -/
def completeReject (e : ErrVal) (s : MState) : MState :=
  settleWith (.error e) (cleanupRun s)

/-- `this._allAddsProcessed?.()`: resolve `_addsPromise` when the
resolver is present. -/
def fireAdds (s : MState) : MState :=
  if s.addsWired then { s with addsFired := true } else s

/-- The zero-cursor branch of `_publishHandlerResult`:
`this._allAddsProcessed?.(); this.ready(); return;`. -/
def noCursorFinish (s : MState) : MState :=
  readyRun (fireAdds s)

/-- The synchronous body of the `cursors.map` callback in
`_publishHandlerResult`: `_ensureCollectionInRes` for every retained
cursor's collection name (before any observation result arrives). -/
def registerCollections (s : MState) (cs : List JSVal) : MState :=
  { s with
    documents := cs.foldl (fun st cur => ensureCollectionInRes st (collNameOf cur)) s.documents }

/-- The asynchronous events that can act on a running `collect` call;
each corresponds to one continuation or callback in the source. -/
inductive Ev where
  | timerFires
  | handlerThrew (e : ErrVal)
  | handlerRejected (e : ErrVal)
  | handlerResolved (v : JSVal)
  | obsRegistered (hs : List Nat)
  | obsDelivered (ops : List StoreOp)
  | obsCompleted
  | obsErrored (e : ErrVal)
  | bothResolve
  | readyCalled
  | stopCalled

/-- One step of the `collect` life cycle.

* `timerFires`: the 5000 ms timer callback — it only rejects with the
  timeout error; it clears nothing and stops nothing.
* `handlerThrew` / `handlerRejected`: the `catch` around the handler
  call and the `.catch` on its promised result: `cleanup` then
  `reject` with the original error.
* `handlerResolved v`: entry of `_publishHandlerResult(v)` — on zero
  cursors fire the adds resolver and `ready()`; otherwise run the
  synchronous `_ensureCollectionInRes` pass for all retained cursors.
* `obsRegistered hs`: `Promise.all(cursors.map(... _publishCursor))`
  resolved: push the obtained handles.
* `obsDelivered ops`: queued `added`/`changed`/`removed` callbacks (or
  manual calls) are delivered to the store.
* `obsCompleted`: `initialAddsSent` and queue flushes are done: fire the
  adds resolver, drop it, then `ready()`.
* `obsErrored e`: the `catch` in `_publishHandlerResult` calls
  `this.error(e)`, which re-throws, rejecting its promise; the `.catch`
  in `collect` then runs `cleanup` and rejects with the same `e`.
* `bothResolve`: the `readyPromise.then(() => this._addsPromise).then`
  continuation (runs once both signals fired): `cleanup` then resolve
  with `_generateResponse()`.
* `readyCalled` / `stopCalled`: manual `ready()` / `stop()` calls. -/
def step (s : MState) : Ev → MState
  | .timerFires =>
      settleWith (.error (.constructed (timeoutMsg s.pubName))) { s with timerActive := false }
  | .handlerThrew e => completeReject e s
  | .handlerRejected e => completeReject e s
  | .handlerResolved v =>
      let cs := extractCursors v
      if cs.isEmpty then noCursorFinish s else registerCollections s cs
  | .obsRegistered hs => { s with observeHandles := s.observeHandles ++ hs }
  | .obsDelivered ops => { s with documents := applyOps s.documents ops }
  | .obsCompleted => readyRun { (fireAdds s) with addsWired := false }
  | .obsErrored e => completeReject e s
  | .bothResolve => settleWith (.ok (generateResponse s.documents)) (cleanupRun s)
  | .readyCalled => readyRun s
  | .stopCalled => stopRun s

/-- Run a sequence of events. -/
def runEvents (s : MState) (es : List Ev) : MState :=
  es.foldl step s

/-- State right after the synchronous prologue of `collect(name, ...)`
succeeded: store and observer list reset, both promises wired and
pending, timer armed, promise unsettled.  `fl` is the ambient external
active-status map of observation handles. -/
def initState (name : String) (fl : List (Nat × Bool)) : MState :=
  { documents := []
    observeHandles := []
    stopped := false
    activeFlags := fl
    readyWired := true
    readyFired := false
    addsWired := true
    addsFired := false
    timerActive := true
    settled := none
    pubName := name }

/-- The per-call reset performed by `collect` on an existing instance
(`this._documents = {}; this._stopped = false; this._observeHandles =
[];` plus rewiring both promises and the timer). -/
def resetForCall (prev : MState) (name : String) : MState :=
  { prev with
    documents := []
    stopped := false
    observeHandles := []
    readyWired := true
    readyFired := false
    addsWired := true
    addsFired := false
    timerActive := true
    settled := none
    pubName := name }

/-- Outcome of the synchronous lookup phase of `collect`: either the
immediate "not found" rejection (instance state untouched, no handler
to invoke), or a running call holding the handler found in the
registry. -/
inductive CollectBegin (H : Type) where
  | rejected (e : ErrVal) (inst : MState)
  | running (s : MState) (handler : H)

/-- The lookup-and-reset prologue of `collect(name, ...)`:
`Meteor.server.publish_handlers[name]` then `throw` on absence, else
reset per-call state. -/
def collectBegin {H : Type} (reg : List (String × H)) (name : String)
    (prev : MState) : CollectBegin H :=
  match getKey reg name with
  | none => .rejected (.constructed (notFoundMsg name)) prev
  | some h => .running (resetForCall prev name) h

/-! ### Helper lemmas about the machine -/

theorem ensure_of_isSome (st : Store) (c : String)
    (h : (getKey st c).isSome = true) : ensureCollectionInRes st c = st := by
  unfold ensureCollectionInRes
  cases hg : getKey st c with
  | some docs => rfl
  | none => rw [hg] at h; cases h

theorem settleWith_of_none (out : Except ErrVal Response) (s : MState)
    (h : s.settled = none) : (settleWith out s).settled = some out := by
  unfold settleWith
  rw [h]
  rfl

theorem settleWith_stopped (out : Except ErrVal Response) (s : MState) :
    (settleWith out s).stopped = s.stopped := by
  unfold settleWith
  by_cases h : s.settled.isSome <;> simp [h]

theorem settleWith_observeHandles (out : Except ErrVal Response) (s : MState) :
    (settleWith out s).observeHandles = s.observeHandles := by
  unfold settleWith
  by_cases h : s.settled.isSome <;> simp [h]

theorem settleWith_timerActive (out : Except ErrVal Response) (s : MState) :
    (settleWith out s).timerActive = s.timerActive := by
  unfold settleWith
  by_cases h : s.settled.isSome <;> simp [h]

theorem settleWith_activeFlags (out : Except ErrVal Response) (s : MState) :
    (settleWith out s).activeFlags = s.activeFlags := by
  unfold settleWith
  by_cases h : s.settled.isSome <;> simp [h]

theorem cleanupRun_settled (s : MState) : (cleanupRun s).settled = s.settled := by
  unfold cleanupRun stopRun
  by_cases h : s.stopped <;> simp [h]

theorem cleanupRun_stopped (s : MState) : (cleanupRun s).stopped = true := by
  unfold cleanupRun stopRun
  by_cases h : s.stopped <;> simp [h]

theorem cleanupRun_observeHandles (s : MState) (h : s.stopped = false) :
    (cleanupRun s).observeHandles = [] := by
  unfold cleanupRun stopRun
  simp [h]

theorem cleanupRun_timerActive (s : MState) : (cleanupRun s).timerActive = false := by
  unfold cleanupRun stopRun
  by_cases h : s.stopped <;> simp [h]

theorem getKey_foldl_setFalse_of (hs : List Nat) (fl : List (Nat × Bool)) (h : Nat)
    (hcur : getKey fl h = some false) :
    getKey (hs.foldl (fun a b => setKey a b false) fl) h = some false := by
  induction hs generalizing fl with
  | nil => exact hcur
  | cons a as ih =>
    simp only [List.foldl_cons]
    apply ih
    by_cases hah : a = h
    · subst hah
      rw [getKey_setKey_self]
    · rw [getKey_setKey_ne _ _ _ _ hah]
      exact hcur

theorem getKey_foldl_setFalse (hs : List Nat) (fl : List (Nat × Bool)) (h : Nat)
    (hmem : h ∈ hs) :
    getKey (hs.foldl (fun a b => setKey a b false) fl) h = some false := by
  induction hs generalizing fl with
  | nil => cases hmem
  | cons a as ih =>
    simp only [List.foldl_cons]
    rcases List.mem_cons.mp hmem with h1 | h2
    · subst h1
      exact getKey_foldl_setFalse_of as _ _ (getKey_setKey_self _ _ _)
    · exact ih _ h2

theorem getKey_isSome_ensure_mono (st : Store) (c c' : String)
    (h : (getKey st c').isSome = true) :
    (getKey (ensureCollectionInRes st c) c').isSome = true := by
  by_cases hc : c = c'
  · subst hc
    rw [getKey_ensure_self]
    rfl
  · rw [getKey_ensure_ne _ _ _ hc]
    exact h

theorem getKey_isSome_foldl_ensure_of (cs : List JSVal) (st : Store) (c' : String)
    (h : (getKey st c').isSome = true) :
    (getKey (cs.foldl (fun a b => ensureCollectionInRes a (collNameOf b)) st) c').isSome
      = true := by
  induction cs generalizing st with
  | nil => exact h
  | cons a as ih =>
    simp only [List.foldl_cons]
    exact ih _ (getKey_isSome_ensure_mono _ _ _ h)

theorem getKey_isSome_foldl_ensure (cs : List JSVal) (st : Store) (cur : JSVal)
    (hmem : cur ∈ cs) :
    (getKey (cs.foldl (fun a b => ensureCollectionInRes a (collNameOf b)) st)
        (collNameOf cur)).isSome = true := by
  induction cs generalizing st with
  | nil => cases hmem
  | cons a as ih =>
    simp only [List.foldl_cons]
    rcases List.mem_cons.mp hmem with h1 | h2
    · subst h1
      exact getKey_isSome_foldl_ensure_of as _ _ (by
        rw [getKey_ensure_self]
        rfl)
    · exact ih _ h2

/-! ### Evaluation helpers for concrete op sequences -/

theorem added_nil (c i : String) (f : MDoc) :
    added ([] : Store) c i f = [(c, [(i, mkAddedDoc i f)])] := by
  simp [added, ensureCollectionInRes, getKey, setKey]

theorem changed_single (c i : String) (d g : MDoc) :
    changed [(c, [(i, d)])] c i g = [(c, [(i, assignFields d g)])] := by
  simp [changed, ensureCollectionInRes, getKey, setKey]

theorem removed_single (c i : String) (d : MDoc) :
    removed [(c, [(i, d)])] c i = [(c, [])] := by
  simp [removed, ensureCollectionInRes, getKey, setKey, delKey]

/-! ### Claims -/

/-- Claim C3, counterexample.  The claim says `changed`/`removed` on a
missing document leave the document store, including the set of
collection keys in the final snapshot, unchanged.  On the empty store,
`changed("a", "x", {})` runs `_ensureCollectionInRes("a")` first and so
creates the collection key `"a"`, which then appears in the snapshot as
an empty list; `removed` behaves the same way. -/
theorem changedOnMissingCreatesKeyCex :
    changed ([] : Store) "a" "x" [] = [("a", [])] ∧
    changed ([] : Store) "a" "x" [] ≠ ([] : Store) ∧
    generateResponse (changed ([] : Store) "a" "x" []) = [("a", [])] ∧
    removed ([] : Store) "b" "y" = [("b", [])] ∧
    removed ([] : Store) "b" "y" ≠ ([] : Store) := by
  refine ⟨rfl, by decide, rfl, rfl, by decide⟩

/-- Claim C3, amended.  `changed(collection, id, fields)` and
`removed(collection, id)` when no document with that id exists throw no
error and never create or modify any document; they leave the store
unchanged except that they ensure the collection key exists: both equal
`_ensureCollectionInRes` of the store, so if the collection key is
already present the store is entirely unchanged, and if it is absent the
only change is a new empty collection bucket. -/
theorem changedRemovedMissingDocNoop (st : Store) (c i : String) (f : MDoc)
    (h : docAt st c i = none) :
    changed st c i f = ensureCollectionInRes st c ∧
    removed st c i = ensureCollectionInRes st c ∧
    docAt (changed st c i f) c i = none ∧
    docAt (removed st c i) c i = none ∧
    ((getKey st c).isSome = true → changed st c i f = st ∧ removed st c i = st) := by
  unfold docAt at h
  have hd : (getKey (ensureCollectionInRes st c) c).getD [] = (getKey st c).getD [] := by
    rw [getKey_ensure_self]
    simp
  have h1 : changed st c i f = ensureCollectionInRes st c := by
    simp only [changed, hd, h]
  have h2 : removed st c i = ensureCollectionInRes st c := by
    simp only [removed, hd, delKey_of_getKey_none _ _ h]
    exact setKey_of_getKey_eq _ _ _ (getKey_ensure_self st c)
  refine ⟨h1, h2, ?_, ?_, ?_⟩
  · rw [docAt_changed_self]
    unfold docAt
    rw [h]
    rfl
  · exact docAt_removed_self st c i
  · intro hs
    rw [h1, h2, ensure_of_isSome st c hs]
    exact ⟨rfl, rfl⟩

/-- Claim C3 amended, witness: on a store holding only document `"y"`
of collection `"a"`, `changed("a", "x", {})` and `removed("a", "x")`
leave the store unchanged. -/
theorem changedRemovedMissingDocNoopW :
    changed [("a", [("y", [("_id", "y")])])] "a" "x" [] =
      [("a", [("y", [("_id", "y")])])] ∧
    removed [("a", [("y", [("_id", "y")])])] "a" "x" =
      [("a", [("y", [("_id", "y")])])] :=
  (changedRemovedMissingDocNoop [("a", [("y", [("_id", "y")])])] "a" "x" []
      (by decide)).2.2.2.2 (by decide)

/-- Claim C4 (confirmed).  For every finite sequence of
`added`/`changed`/`removed` calls during one collect call, the document
finally stored at any `(collection, id)` is exactly the fold, in call
order, of the net effect of the calls targeting that `(collection, id)`
(`added` replaces, `changed` merges into a present document, `removed`
deletes); in particular `added` then `changed` yields the single
document `{ _id: id, ...addedFields }` merged with the changed fields,
and `added` then `changed` then `removed` yields no entry for that id
(the collection key remains, as an empty list). -/
theorem netEffectOfOpSequences :
    (∀ (st : Store) (ops : List StoreOp) (c i : String),
      docAt (applyOps st ops) c i = (opsAt c i ops).foldl (netStep i) (docAt st c i)) ∧
    (∀ (c i : String) (f g : MDoc),
      docAt (applyOps [] [.add c i f, .chg c i g]) c i =
        some (assignFields (mkAddedDoc i f) g) ∧
      generateResponse (applyOps [] [.add c i f, .chg c i g]) =
        [(c, [assignFields (mkAddedDoc i f) g])]) ∧
    (∀ (c i : String) (f g : MDoc),
      docAt (applyOps [] [.add c i f, .chg c i g, .rm c i]) c i = none ∧
      generateResponse (applyOps [] [.add c i f, .chg c i g, .rm c i]) = [(c, [])]) := by
  refine ⟨fun st ops c i => docAt_applyOps ops st c i, ?_, ?_⟩
  · intro c i f g
    have hstore : applyOps [] [.add c i f, .chg c i g] =
        [(c, [(i, assignFields (mkAddedDoc i f) g)])] := by
      show changed (added [] c i f) c i g = _
      rw [added_nil, changed_single]
    rw [hstore]
    constructor
    · simp [docAt, getKey]
    · simp [generateResponse]
  · intro c i f g
    have hstore : applyOps [] [.add c i f, .chg c i g, .rm c i] = [(c, [])] := by
      show removed (changed (added [] c i f) c i g) c i = _
      rw [added_nil, changed_single, removed_single]
    rw [hstore]
    constructor
    · simp [docAt, getKey]
    · simp [generateResponse]

/-- Claim C5 (confirmed).  `_extractCursors` classifies the handler's
resolved return value: `null`/`undefined` give the empty cursor list, a
cursor-like value (truthy with a `_publishCursor` function) gives the
one-element list containing it, an array gives exactly its cursor-like
elements in order (non-cursors silently dropped), and any other value
gives the empty list. -/
theorem extractCursorsClassification :
    (extractCursors .vnull = [] ∧ extractCursors .vundefined = []) ∧
    (∀ v : JSVal, isCursor v = true → extractCursors v = [v]) ∧
    (∀ elems : List JSVal,
      extractCursors (.arr elems) = elems.filter (fun r => isCursor r)) ∧
    (∀ v : JSVal, isCursor v = false → (∀ elems, v ≠ .arr elems) →
      extractCursors v = []) := by
  refine ⟨⟨rfl, rfl⟩, ?_, fun elems => rfl, ?_⟩
  · intro v hv
    have ht : truthy v = true := by
      cases hb : truthy v
      · rw [isCursor, hb] at hv
        simp at hv
      · rfl
    unfold extractCursors
    rw [ht, hv]
    simp
  · intro v hv harr
    cases v with
    | vnull => rfl
    | vundefined => rfl
    | obj pc cn =>
      cases pc
      · rfl
      · exact Bool.noConfusion hv
    | arr elems => exact absurd rfl (harr elems)
    | prim t => cases t <;> rfl

/-- Claim C5, witness: a cursor-like object is retained as a singleton
and a truthy non-cursor primitive yields the empty list. -/
theorem extractCursorsClassificationW :
    extractCursors (.obj true "c") = [.obj true "c"] ∧
    extractCursors (.prim true) = [] :=
  ⟨extractCursorsClassification.2.1 _ rfl,
   extractCursorsClassification.2.2.2 _ rfl (fun _ h => JSVal.noConfusion h)⟩

/-- Claim C8 (confirmed).  When `name` is absent from the handler
registry, `collect` rejects immediately with a newly constructed
descriptive error whose message names the publication; the result is
the `rejected` outcome, which carries no handler to invoke, performs no
reset and starts no observation: the instance state is returned
untouched. -/
theorem collectNotFoundRejects {H : Type} (reg : List (String × H))
    (name : String) (prev : MState) (h : getKey reg name = none) :
    collectBegin reg name prev =
      .rejected (.constructed (notFoundMsg name)) prev ∧
    notFoundMsg name = "Publication \"" ++ name ++ "\" not found" := by
  constructor
  · unfold collectBegin
    rw [h]
  · rfl

/-- Claim C8, witness: looking up `"missing"` in the empty registry. -/
theorem collectNotFoundRejectsW :
    collectBegin ([] : List (String × Unit)) "missing" (initState "" []) =
      .rejected (.constructed (notFoundMsg "missing")) (initState "" []) :=
  (collectNotFoundRejects ([] : List (String × Unit)) "missing"
      (initState "" []) rfl).1

/-- Claim C9 (confirmed).  `stop()` is idempotent: applying it twice
equals applying it once (it is a total function, so no error is
raised).  On a non-stopped state the first invocation marks the
instance stopped, stops (deactivates) every registered observation
handle and clears the handle list; on an already-stopped state it is a
no-op.  The manual `stop()` event of the machine is exactly this
function, and the next `collect` call's reset re-arms the instance with
`stopped = false` and an empty handle list. -/
theorem stopIdempotent (s : MState) (name : String) :
    stopRun (stopRun s) = stopRun s ∧
    (s.stopped = false →
      (stopRun s).stopped = true ∧
      (stopRun s).observeHandles = [] ∧
      ∀ h ∈ s.observeHandles, getKey (stopRun s).activeFlags h = some false) ∧
    (s.stopped = true → stopRun s = s) ∧
    step s .stopCalled = stopRun s ∧
    (resetForCall s name).stopped = false ∧
    (resetForCall s name).observeHandles = [] := by
  refine ⟨?_, ?_, ?_, rfl, rfl, rfl⟩
  · by_cases hs : s.stopped
    · unfold stopRun
      simp [hs]
    · unfold stopRun
      simp [hs]
  · intro hs
    have hrec : stopRun s =
        { s with
          stopped := true
          activeFlags := s.observeHandles.foldl (fun fl h => setKey fl h false) s.activeFlags
          observeHandles := [] } := by
      unfold stopRun
      rw [hs]
      simp
    rw [hrec]
    refine ⟨rfl, rfl, ?_⟩
    intro h hmem
    exact getKey_foldl_setFalse _ _ _ hmem
  · intro hs
    unfold stopRun
    simp [hs]

/-- Claim C9, witness: a state with one registered active handle. -/
theorem stopIdempotentW :
    (stopRun { initState "p" [(1, true)] with observeHandles := [1] }).stopped = true ∧
    (stopRun { initState "p" [(1, true)] with observeHandles := [1] }).observeHandles = [] ∧
    getKey (stopRun { initState "p" [(1, true)] with observeHandles := [1] }).activeFlags 1 =
      some false := by
  have h := (stopIdempotent { initState "p" [(1, true)] with observeHandles := [1] } "p").2.1 rfl
  exact ⟨h.1, h.2.1, h.2.2 1 (List.mem_singleton_self 1)⟩

/-- Claim C10 (confirmed).  `ready()` with no resolver wired (no
`collect` call has run yet) is the identity; it is idempotent (the
first settlement of the readiness promise wins, extra invocations are
no-ops); and in every state it leaves every observable component —
settlement, documents, observer list, stopped flag and external handle
status — unchanged, so calling it outside a call (including after the
call settled) changes nothing observable and raises no error.  The
manual `ready()` event of the machine is exactly this function. -/
theorem readyNoopIdempotent (s : MState) :
    (s.readyWired = false → readyRun s = s) ∧
    readyRun (readyRun s) = readyRun s ∧
    (readyRun s).settled = s.settled ∧
    (readyRun s).documents = s.documents ∧
    (readyRun s).observeHandles = s.observeHandles ∧
    (readyRun s).stopped = s.stopped ∧
    (readyRun s).activeFlags = s.activeFlags ∧
    step s .readyCalled = readyRun s := by
  refine ⟨?_, ?_, ?_, ?_, ?_, ?_, ?_, rfl⟩ <;>
    (unfold readyRun; by_cases h : s.readyWired <;> simp [h])

/-- Claim C10, witness: on a fresh instance (no resolver wired),
`ready()` is the identity. -/
theorem readyNoopIdempotentW :
    readyRun { initState "" [] with readyWired := false } =
      { initState "" [] with readyWired := false } :=
  (readyNoopIdempotent { initState "" [] with readyWired := false }).1 rfl

/-- Trace refuting observer cleanup on the timeout path: the handler
returns two cursors, both `_publishCursor` calls resolve and their
handles are pushed, but the initial adds never complete, so the 5000 ms
timer fires while the call is unsettled. -/
def timeoutLeakTrace : List Ev :=
  [.handlerResolved (.arr [.obj true "a", .obj true "b"]),
   .obsRegistered [1, 2], .timerFires]

/-- Final state of the timeout-leak trace, starting from a fresh call on
`"p"` with both handles externally active. -/
def timeoutLeakFinal : MState :=
  runEvents (initState "p" [(1, true), (2, true)]) timeoutLeakTrace

/-- Claim C1, counterexample.  The claim says that on the timeout
completion path the instance stops all active observers it registered
for the call, leaving none active.  In the source the timer callback
only calls `reject` — `cleanup`/`stop()` run solely in the success and
error continuations — so after a timeout rejection with two registered
observers, the call has rejected with the timeout error yet both
handles are still registered, still externally active, and the
instance is not stopped. -/
theorem timeoutLeavesObserversCex :
    timeoutLeakFinal.settled = some (.error (.constructed (timeoutMsg "p"))) ∧
    timeoutLeakFinal.observeHandles = [1, 2] ∧
    timeoutLeakFinal.stopped = false ∧
    getKey timeoutLeakFinal.activeFlags 1 = some true ∧
    getKey timeoutLeakFinal.activeFlags 2 = some true :=
  ⟨rfl, rfl, rfl, rfl, rfl⟩

/-- Claim C1, amended.  The timer is armed with 5000 ms; when it fires
while the call is unsettled, the call rejects with the timeout error
(first settlement wins).  However, the timeout rejection itself stops
no observers: the stopped flag, the registered observer list and the
external handle status are unchanged by the timer event.  Observers are
stopped on the success and error completion paths only. -/
theorem timeoutRejectsWithoutStopping (s : MState) :
    timeoutDelayMs = 5000 ∧
    (s.settled = none →
      (step s .timerFires).settled =
        some (.error (.constructed (timeoutMsg s.pubName)))) ∧
    (step s .timerFires).stopped = s.stopped ∧
    (step s .timerFires).observeHandles = s.observeHandles ∧
    (step s .timerFires).activeFlags = s.activeFlags ∧
    (step s .bothResolve).stopped = true ∧
    (∀ e : ErrVal, (step s (.handlerThrew e)).stopped = true) := by
  refine ⟨rfl, ?_, ?_, ?_, ?_, ?_, ?_⟩
  · intro h
    exact settleWith_of_none _ { s with timerActive := false } h
  · rw [show step s .timerFires =
        settleWith (.error (.constructed (timeoutMsg s.pubName)))
          { s with timerActive := false } from rfl, settleWith_stopped]
  · rw [show step s .timerFires =
        settleWith (.error (.constructed (timeoutMsg s.pubName)))
          { s with timerActive := false } from rfl, settleWith_observeHandles]
  · rw [show step s .timerFires =
        settleWith (.error (.constructed (timeoutMsg s.pubName)))
          { s with timerActive := false } from rfl, settleWith_activeFlags]
  · rw [show step s .bothResolve =
        settleWith (.ok (generateResponse s.documents)) (cleanupRun s) from rfl,
      settleWith_stopped]
    exact cleanupRun_stopped s
  · intro e
    rw [show step s (.handlerThrew e) =
        settleWith (.error e) (cleanupRun s) from rfl, settleWith_stopped]
    exact cleanupRun_stopped s

/-- Claim C1 amended, witness: the timer firing on a freshly started
call rejects it with the timeout error. -/
theorem timeoutRejectsWithoutStoppingW :
    (step (initState "p" []) .timerFires).settled =
      some (.error (.constructed (timeoutMsg "p"))) :=
  (timeoutRejectsWithoutStopping (initState "p" [])).2.1 rfl

/-- Final state of a call whose handler resolved to `null` and never
called `ready()` itself. -/
def noCursorFinal : MState :=
  runEvents (initState "p" []) [.handlerResolved .vnull, .bothResolve, .timerFires]

/-- Claim C2, counterexample.  The claim says a handler resolving to no
cursors that never calls `ready()` makes `collect` time out.  In the
source the zero-cursor branch of `_publishHandlerResult` itself calls
`this._allAddsProcessed?.()` and `this.ready()`, so both completion
signals fire immediately and the call resolves with the empty snapshot;
the later timer firing is a no-op on the settled promise, and the
outcome is not the timeout rejection. -/
theorem noCursorTimesOutCex :
    noCursorFinal.settled = some (.ok []) ∧
    noCursorFinal.settled ≠ some (.error (.constructed (timeoutMsg "p"))) ∧
    (runEvents (initState "p" []) [.handlerResolved .vnull]).readyFired = true ∧
    (runEvents (initState "p" []) [.handlerResolved .vnull]).addsFired = true := by
  refine ⟨rfl, ?_, rfl, rfl⟩
  intro h
  have h3 : (some (Except.ok ([] : Response)) : Option (Except ErrVal Response)) =
      some (.error (.constructed (timeoutMsg "p"))) := h
  exact Except.noConfusion (Option.some.inj h3)

/-- Claim C2, amended.  A handler that resolves to no cursors does not
time out: the collector itself fires the all-adds-processed resolver
and `ready()` in the zero-cursor branch, so both signals are set right
after the handler result is processed and the completion continuation
resolves the call with the snapshot of whatever manual events happened
(the empty snapshot when there were none). -/
theorem noCursorAutoReady (name : String) (fl : List (Nat × Bool)) (v : JSVal)
    (h : extractCursors v = []) :
    (step (initState name fl) (.handlerResolved v)).readyFired = true ∧
    (step (initState name fl) (.handlerResolved v)).addsFired = true ∧
    (step (initState name fl) (.handlerResolved v)).settled = none ∧
    (runEvents (initState name fl) [.handlerResolved v, .bothResolve]).settled =
      some (.ok []) := by
  have hs : step (initState name fl) (.handlerResolved v) =
      { initState name fl with readyFired := true, addsFired := true } := by
    show (if (extractCursors v).isEmpty then noCursorFinish (initState name fl)
          else registerCollections (initState name fl) (extractCursors v)) = _
    rw [h]
    rfl
  refine ⟨by rw [hs], by rw [hs], by rw [hs]; rfl, ?_⟩
  show (step (step (initState name fl) (.handlerResolved v)) .bothResolve).settled =
    some (.ok [])
  rw [hs]
  rfl

/-- Claim C2 amended, witness: a handler resolving to `null` on a fresh
call; the call resolves with the empty snapshot. -/
theorem noCursorAutoReadyW :
    (runEvents (initState "q" []) [.handlerResolved .vnull, .bothResolve]).settled =
      some (.ok []) :=
  (noCursorAutoReady "q" [] .vnull rfl).2.2.2

/-- Claim C6 (confirmed).  Every retained cursor's collection name is
registered in the document store by the synchronous
`_ensureCollectionInRes` pass of `_publishHandlerResult`, i.e. already
in the state produced by processing the handler result, before any
observation handle is obtained (the observer list is untouched by that
step); consequently a call whose handler returns a single cursor whose
observation completes with zero documents resolves to a snapshot in
which the cursor's collection name is present, mapped to the empty
list. -/
theorem preregisterCollectionBeforeObserve (s : MState) (v cur : JSVal)
    (hmem : cur ∈ extractCursors v) :
    (getKey (step s (.handlerResolved v)).documents (collNameOf cur)).isSome = true ∧
    (step s (.handlerResolved v)).observeHandles = s.observeHandles ∧
    ∀ (name cn : String) (fl : List (Nat × Bool)) (hid : Nat),
      (runEvents (initState name fl)
          [.handlerResolved (.obj true cn), .obsRegistered [hid], .obsCompleted,
           .bothResolve]).settled = some (.ok [(cn, [])]) := by
  have hne : (extractCursors v).isEmpty = false := by
    cases hcs : extractCursors v
    · rw [hcs] at hmem
      cases hmem
    · rfl
  have hs : step s (.handlerResolved v) = registerCollections s (extractCursors v) := by
    show (if (extractCursors v).isEmpty then noCursorFinish s
          else registerCollections s (extractCursors v)) = _
    rw [hne]
    simp
  refine ⟨?_, ?_, ?_⟩
  · rw [hs]
    exact getKey_isSome_foldl_ensure _ _ _ hmem
  · rw [hs]
    rfl
  · intro name cn fl hid
    rfl

/-- Claim C6, witness: a single retained cursor over collection `"c"`;
its collection key is present right after the handler result is
processed. -/
theorem preregisterCollectionBeforeObserveW :
    (getKey (step (initState "x" []) (.handlerResolved (.obj true "c"))).documents
        (collNameOf (.obj true "c"))).isSome = true :=
  (preregisterCollectionBeforeObserve (initState "x" []) (.obj true "c")
      (.obj true "c") (List.mem_singleton_self _)).1

/-- Claim C7 (confirmed).  A synchronous handler throw, a rejection of
the handler's promised result, and an error raised while starting or
draining cursor observation (re-thrown by `this.error` and caught by
the same `.catch`) all take the one shared rejection path
`cleanup(timeout); reject(err)`: each equals
`settleWith (error e) (cleanupRun s)` with the original error value `e`
itself — identity-preserved, unwrapped — and the resulting state is
settled with exactly `e`, stopped, with no registered observers and a
cleared timer; the success continuation runs the very same
`cleanupRun` before resolving. -/
theorem errorPropagationIdentity (s : MState) (e : ErrVal)
    (hset : s.settled = none) (hstop : s.stopped = false) :
    step s (.handlerThrew e) = settleWith (.error e) (cleanupRun s) ∧
    step s (.handlerRejected e) = settleWith (.error e) (cleanupRun s) ∧
    step s (.obsErrored e) = settleWith (.error e) (cleanupRun s) ∧
    (step s (.handlerThrew e)).settled = some (.error e) ∧
    (step s (.handlerThrew e)).stopped = true ∧
    (step s (.handlerThrew e)).observeHandles = [] ∧
    (step s (.handlerThrew e)).timerActive = false ∧
    step s .bothResolve = settleWith (.ok (generateResponse s.documents)) (cleanupRun s) := by
  have h1 : (cleanupRun s).settled = none := by
    rw [cleanupRun_settled, hset]
  refine ⟨rfl, rfl, rfl, ?_, ?_, ?_, ?_, rfl⟩
  · exact settleWith_of_none _ _ h1
  · show (settleWith (.error e) (cleanupRun s)).stopped = true
    rw [settleWith_stopped]
    exact cleanupRun_stopped s
  · show (settleWith (.error e) (cleanupRun s)).observeHandles = []
    rw [settleWith_observeHandles]
    exact cleanupRun_observeHandles s hstop
  · show (settleWith (.error e) (cleanupRun s)).timerActive = false
    rw [settleWith_timerActive]
    exact cleanupRun_timerActive s

/-- Claim C7, witness: a handler that throws the opaque error value
`raised 7` on a fresh call rejects the call with exactly that value. -/
theorem errorPropagationIdentityW :
    (step (initState "p" []) (.handlerThrew (.raised 7))).settled =
      some (.error (.raised 7)) :=
  (errorPropagationIdentity (initState "p" []) (.raised 7) rfl rfl).2.2.2.1
